import Mathlib

/-!
Verification of `convert_webp.py` (WebP image converter).

The Python program is embedded shallowly:

* Filesystem paths are modelled as `List Char` (`Path`), matching Python's
  path strings character for character; `pathName`, `pathSuffix`, `pathStem`
  and `pathParent` reimplement the `pathlib.PurePath` accessors used by the
  source (`.name`, `.suffix`, `.stem`, `.parent`) for normalised paths
  without a trailing slash.  `sorted` on `pathlib.Path` objects compares the
  underlying path strings (code-point lexicographic on POSIX), which is the
  lexicographic order on `List Char`.
* All I/O and codec effects (PIL decode, PIL encode, `stat`, `mkdir`,
  wall-clock time) are supplied by a `World` of oracles, one per effectful
  call in the source; each fallible call returns `Except String`, standing
  for a raised-or-not Python exception with its message.
* Wall-clock durations and derived statistics are exact rationals `ℚ`.
  The float divisions by `1024.0` in `format_size` are exact in IEEE
  doubles, so the rational model agrees with the float code on every input
  below `2 ^ 53`; decimal rendering uses round-half-to-even as Python's
  fixed-point formatting does.
* Lines printed to stdout are modelled as structured `OutLine` events;
  `OutLine.render` produces the exact printed text of each event.
* Asynchronous `KeyboardInterrupt` delivery is outside the model.
-/

namespace ConvertWebp

/-- A filesystem path, as the list of characters of the path string. -/
abbrev Path := List Char

/-- One directory entry of the modelled filesystem: its full path and
whether it is a regular file (`is_file()`); entries with `isFile = false`
are directories. -/
structure FSEntry where
  path : Path
  isFile : Bool
deriving DecidableEq

/-- Lowercase a character list, as Python's `str.lower` does for ASCII. -/
def lowerChars (cs : List Char) : List Char := cs.map Char.toLower

/-- Helper for `splitSlash`: accumulates the current component (reversed). -/
def splitSlashAux : List Char → List Char → List (List Char)
  | [], acc => [acc.reverse]
  | c :: cs, acc =>
    if c = '/' then acc.reverse :: splitSlashAux cs []
    else splitSlashAux cs (c :: acc)

/-- Split a path on `/` separators (always returns at least one component). -/
def splitSlash (cs : List Char) : List (List Char) := splitSlashAux cs []

/-- `PurePath.name`: the final path component. -/
def pathName (p : Path) : List Char := (splitSlash p).getLastD []

/-- Index of the last `.` in a name, if any (Python `str.rfind`). -/
def lastDotAux : List Char → Nat → Option Nat → Option Nat
  | [], _, best => best
  | c :: cs, i, best => lastDotAux cs (i + 1) (if c = '.' then some i else best)

/-- Index of the last `.` in a name, if any. -/
def lastDotIdx (name : List Char) : Option Nat := lastDotAux name 0 none

/-- `PurePath.suffix`: the extension of the final component, including the
dot; empty when the last dot is at position 0 (hidden file) or at the very
end, exactly as in `pathlib`. -/
def pathSuffix (p : Path) : List Char :=
  let name := pathName p
  match lastDotIdx name with
  | none => []
  | some i => if 0 < i ∧ i < name.length - 1 then name.drop i else []

/-- `PurePath.stem`: the final component without its suffix. -/
def pathStem (p : Path) : List Char :=
  let name := pathName p
  name.take (name.length - (pathSuffix p).length)

/-- Join path components with `/`. -/
def joinSlash (parts : List (List Char)) : List Char := List.intercalate ['/'] parts

/-- `PurePath.parent` for normalised paths: `.` for a bare name, the prefix
before the last `/` otherwise (`/` for a child of the root). -/
def pathParent (p : Path) : Path :=
  let parts := splitSlash p
  if parts.length ≤ 1 then ['.']
  else
    let pre := joinSlash parts.dropLast
    if pre = [] then ['/'] else pre

/-- Whether `p` is a direct child of `dir` (what `dir.glob ("*")` ranges
over, before any file-type filtering). -/
def isDirectChildPath (dir p : Path) : Bool :=
  (dir ++ ['/']).isPrefixOf p &&
    (let rest := p.drop (dir.length + 1)
     !rest.isEmpty && !rest.contains '/')

/-- Whether `p` is a descendant of `dir` at any depth of at least one (what
`dir.glob ("**/*")` ranges over, before any file-type filtering). -/
def isDescendantPath (dir p : Path) : Bool :=
  (dir ++ ['/']).isPrefixOf p && !(p.drop (dir.length + 1)).isEmpty

/-- PIL image modes, per the Pillow documentation (standard modes `1`, `L`,
`P`, `RGB`, `RGBA`, `CMYK`, `YCbCr`, `LAB`, `HSV`, `I`, `F` plus the
limited-support modes `LA`, `PA`, `RGBX`, `RGBa`, `La`). -/
inductive Mode where
  | one | L | P | RGB | RGBA | CMYK | YCbCr | LAB | HSV | I | F
  | LA | PA | RGBX | RGBa | La
deriving DecidableEq

/-- Whether a PIL mode carries an alpha channel (per the Pillow
documentation: `RGBA`, `LA`, `PA`, and the premultiplied `RGBa`, `La`). -/
def Mode.hasAlpha : Mode → Bool
  | .RGBA | .LA | .PA | .RGBa | .La => true
  | _ => false

/-- Which branch of the colour-normalisation code an image mode takes. -/
inductive NormStep where
  | compositeOnWhite
  | convertToRGB
  | unchanged
deriving DecidableEq

/-- The branch taken by the normalisation code in `convert_to_webp`:
`if img.mode in ("RGBA", "LA")` composite on a white background, `elif
img.mode not in ("RGB", "L")` convert to RGB, else leave unchanged. -/
def normStep (m : Mode) : NormStep :=
  if m = Mode.RGBA ∨ m = Mode.LA then NormStep.compositeOnWhite
  else if ¬(m = Mode.RGB ∨ m = Mode.L) then NormStep.convertToRGB
  else NormStep.unchanged

/-- The mode of the image that reaches `img.save`: the white-background
composite is an `RGB` image, `convert ("RGB")` yields `RGB`, and `RGB`/`L`
images pass through unchanged. -/
def normalizedMode (m : Mode) : Mode :=
  if m = Mode.RGBA ∨ m = Mode.LA then Mode.RGB
  else if ¬(m = Mode.RGB ∨ m = Mode.L) then Mode.RGB
  else m

/-- The keyword arguments handed to `img.save`.  The Python dict always
carries `format = "WEBP"`, `quality`, `method`, `optimize = True`; the
`lossless` key is added only when lossless was requested, and its absence
is PIL's default `lossless = False`, so it is modelled as a plain flag. -/
structure SaveKwargs where
  quality : Int
  method : Int
  optimize : Bool
  lossless : Bool
deriving DecidableEq

/-- Build the `save_kwargs` dict of `convert_to_webp`: quality and method
are passed through unchanged. -/
def mkSaveKwargs (quality method : Int) (lossless : Bool) : SaveKwargs :=
  { quality := quality, method := method, optimize := true, lossless := lossless }

/-- The `argparse` check for `--quality` (`choices = range (1, 101)`):
out-of-range values are rejected with a parse error, not clamped. -/
def qualityChoices (q : Int) : Bool := decide (1 ≤ q) && decide (q ≤ 100)

/-- The `argparse` check for `--method` (`choices = range (7)`):
out-of-range values are rejected with a parse error, not clamped. -/
def methodChoices (m : Int) : Bool := decide (0 ≤ m) && decide (m ≤ 6)

/-- The converter's counters (`self.converted_count`, `self.failed_count`),
threaded explicitly through every call. -/
structure ConverterState where
  converted_count : Nat
  failed_count : Nat
deriving DecidableEq

/-- `WebPConverter.__init__`: both counters start at zero. -/
def ConverterState.init : ConverterState := ⟨0, 0⟩

/-- One line printed to stdout.  `skipping` and `errorConverting` are the
two structurally interesting notices; everything else is carried as its
literal text.  `OutLine.render` recovers the exact printed string. -/
inductive OutLine where
  | text (s : String)
  | skipping (name : Path)
  | errorConverting (path : Path) (msg : String)
deriving DecidableEq

/-- The exact text each output event prints. -/
def OutLine.render : OutLine → String
  | .text s => s
  | .skipping n => "Skipping " ++ String.mk n ++ " (already WebP)"
  | .errorConverting p msg => "Error converting " ++ String.mk p ++ ": " ++ msg

/-- The environment of the run: directory entries plus one oracle per
effectful library call made by the source.  A `.error msg` result stands
for that call raising a Python exception whose `str` is `msg`. -/
structure World where
  entries : List FSEntry
  isValid : Path → Bool
  decode : Path → Except String Mode
  mkdirFails : Path → Option String
  encode : Path → SaveKwargs → Except String Unit
  statSize : Path → Except String Nat
  elapsed : Path → ℚ

/-- `Path.is_file ()`. -/
def World.isFile (w : World) (p : Path) : Bool :=
  w.entries.any fun e => e.path == p && e.isFile

/-- `Path.is_dir ()`. -/
def World.isDir (w : World) (p : Path) : Bool :=
  w.entries.any fun e => e.path == p && !e.isFile

/-- `Path.exists ()`. -/
def World.pathExists (w : World) (p : Path) : Bool :=
  w.isFile p || w.isDir p

/-- Round an exact rational to the nearest integer, ties to even —
the rounding used by Python's fixed-point float formatting.  Computed from
numerator and denominator so that it kernel-evaluates on literals. -/
def roundHalfEven (q : ℚ) : ℤ :=
  let fl := ⌊q⌋
  let num2 := 2 * (q.num - fl * (q.den : ℤ))
  if num2 < (q.den : ℤ) then fl
  else if (q.den : ℤ) < num2 then fl + 1
  else if fl % 2 = 0 then fl else fl + 1

/-- Left-pad a digit string with zeros to the requested width. -/
def padZeros (width : Nat) (s : String) : String :=
  String.mk (List.replicate (width - s.length) '0') ++ s

/-- Python's fixed-point formatting `f"{q:.{prec}f}"` on an exact value:
scale by `10 ^ prec`, round half to even, and print with exactly `prec`
fractional digits. -/
def fmtFixed (prec : Nat) (q : ℚ) : String :=
  let scaled : Int := roundHalfEven (q * (10 : ℚ) ^ prec)
  let sign := if scaled < 0 then "-" else ""
  let mag := scaled.natAbs
  if prec = 0 then sign ++ toString mag
  else sign ++ toString (mag / 10 ^ prec) ++ "." ++ padZeros prec (toString (mag % 10 ^ prec))

/-- The unit labels of `format_size`. -/
def sizeUnits : List String := ["B", "KB", "MB", "GB", "TB"]

/-- The `while size >= 1024.0 and unit_index < len (units) - 1` loop of
`format_size`.  The index is bounded by 4 and strictly increases, so 4
units of fuel reproduce the loop exactly. -/
def sizeLoop : Nat → ℚ → Nat → ℚ × Nat
  | 0, size, unit_index => (size, unit_index)
  | fuel + 1, size, unit_index =>
    if 1024 ≤ size ∧ unit_index < sizeUnits.length - 1 then
      sizeLoop fuel (size / 1024) (unit_index + 1)
    else (size, unit_index)

/-- `WebPConverter.format_size`: repeatedly divide by 1024 and render with
one fractional digit followed by the unit. -/
def format_size (size_bytes : Nat) : String :=
  let p := sizeLoop 4 (size_bytes : ℚ) 0
  fmtFixed 1 p.1 ++ " " ++ sizeUnits.getD p.2 ("")

/-- Closed form of the unit index `format_size` ends with: the number of
divisions the loop performs on input `n`. -/
def kOf (n : ℕ) : ℕ :=
  if n < 1024 then 0
  else if n < 1024 ^ 2 then 1
  else if n < 1024 ^ 3 then 2
  else if n < 1024 ^ 4 then 3
  else 4

/-- `WebPConverter.is_valid_image`: the `Image.open` + `verify` probe;
any decode failure yields `False` rather than an exception. -/
def is_valid_image (w : World) (file_path : Path) : Bool := w.isValid file_path

/-- Output-path resolution of `convert_to_webp`: the explicit output path
if given; else `output_folder/<stem>.webp` after `mkdir` (which may fail);
else `<parent>/<stem>.webp` next to the input. -/
def resolveOutput (w : World) (input_path : Path) (output_path : Option Path)
    (output_folder : Option Path) : Except String Path :=
  match output_path with
  | some op => Except.ok op
  | none =>
    match output_folder with
    | some folder =>
      match w.mkdirFails folder with
      | some msg => Except.error msg
      | none => Except.ok (folder ++ ['/'] ++ pathStem input_path ++ ".webp".data)
    | none => Except.ok (pathParent input_path ++ ['/'] ++ pathStem input_path ++ ".webp".data)

/-- The fallible body of `convert_to_webp`'s `try` block: resolve the
output path, decode, normalise colour, encode with the pass-through
kwargs, stat both files, and fail on a zero-byte original exactly where
Python's ratio computation raises `ZeroDivisionError`.  On success it
yields the output path, both byte sizes, and the elapsed wall time. -/
def convertCore (w : World) (input_path : Path) (output_path : Option Path)
    (quality : Int) (lossless : Bool) (method : Int) (output_folder : Option Path) :
    Except String (Path × Nat × Nat × ℚ) :=
  match resolveOutput w input_path output_path output_folder with
  | Except.error e => Except.error e
  | Except.ok outPath =>
    match w.decode input_path with
    | Except.error e => Except.error e
    | Except.ok mode =>
      let _img := normalizedMode mode
      match w.encode outPath (mkSaveKwargs quality method lossless) with
      | Except.error e => Except.error e
      | Except.ok _ =>
        match w.statSize input_path with
        | Except.error e => Except.error e
        | Except.ok original_size =>
          match w.statSize outPath with
          | Except.error e => Except.error e
          | Except.ok compressed_size =>
            if original_size = 0 then Except.error ("division by zero")
            else Except.ok (outPath, original_size, compressed_size, w.elapsed input_path)

/-- `_print_conversion_result`: the seven lines of the per-file report
(including the trailing blank line). -/
def printConversionResult (input_path output_path : Path)
    (original_size compressed_size : Nat) (compression_ratio time_taken : ℚ) :
    List OutLine :=
  [OutLine.text ("Converted: " ++ String.mk (pathName input_path)),
   OutLine.text ("  Output: " ++ String.mk (pathName output_path)),
   OutLine.text ("  Original: " ++ format_size original_size),
   OutLine.text ("  Compressed: " ++ format_size compressed_size),
   OutLine.text ("  Compression: " ++ fmtFixed 1 compression_ratio ++ "%"),
   OutLine.text ("  Time taken: " ++ fmtFixed 2 time_taken ++ "s"),
   OutLine.text ("")]

/-- `WebPConverter.convert_to_webp`: returns the `(output, time)` pair,
the updated counters, and the printed lines.  Success prints the report
and bumps `converted_count`; any caught exception prints the one-line
error, bumps `failed_count`, and returns `(None, 0.0)`. -/
def convert_to_webp (w : World) (st : ConverterState) (input_path : Path)
    (output_path : Option Path) (quality : Int) (lossless : Bool) (method : Int)
    (output_folder : Option Path) :
    (Option Path × ℚ) × ConverterState × List OutLine :=
  match convertCore w input_path output_path quality lossless method output_folder with
  | Except.ok v =>
    ((some v.1, v.2.2.2),
     ⟨st.converted_count + 1, st.failed_count⟩,
     printConversionResult input_path v.1 v.2.1 v.2.2.1
       ((1 - (v.2.2.1 : ℚ) / (v.2.1 : ℚ)) * 100) v.2.2.2)
  | Except.error e =>
    ((none, 0), ⟨st.converted_count, st.failed_count + 1⟩,
     [OutLine.errorConverting input_path e])

/-- `WebPConverter.SUPPORTED_EXTENSIONS`. -/
def SUPPORTED_EXTENSIONS : List (List Char) :=
  [".jpg".data, ".jpeg".data, ".png".data, ".bmp".data,
   ".tiff".data, ".tif".data, ".gif".data]

/-- The glob pattern of `_find_image_files`: `*` (direct children) without
`recursive`, `**/*` (all descendants) with it. -/
def globMatch (directory : Path) (recursive : Bool) (p : Path) : Bool :=
  if recursive then isDescendantPath directory p else isDirectChildPath directory p

/-- `WebPConverter._find_image_files`: the globbed regular files whose
lowercased suffix is a supported extension, sorted (Python's `sorted` on
paths: lexicographic on the path string). -/
def find_image_files (w : World) (directory : Path) (recursive : Bool) : List Path :=
  List.insertionSort (· ≤ ·)
    ((w.entries.filter fun e =>
        globMatch directory recursive e.path && e.isFile &&
        SUPPORTED_EXTENSIONS.contains (lowerChars (pathSuffix e.path))).map FSEntry.path)

/-- The `img_file.suffix.lower () == ".webp"` test of the batch loop. -/
def isWebpSuffix (f : Path) : Bool := lowerChars (pathSuffix f) == ".webp".data

/-- The files of a batch list that reach `convert_to_webp` (those that the
`.webp` skip branch does not intercept). -/
def batchProcessed (files : List Path) : List Path :=
  files.filter fun f => !isWebpSuffix f

/-- Whether the conversion of one file succeeds in world `w`. -/
def convertOk (w : World) (quality : Int) (lossless : Bool) (method : Int)
    (output_folder : Option Path) (f : Path) : Bool :=
  (convertCore w f none quality lossless method output_folder).isOk

/-- The `for img_file in image_files` loop of `batch_convert`: skip
already-WebP files with a notice, convert the rest, and accumulate the
returned times. -/
def batchLoop (w : World) (quality : Int) (lossless : Bool) (method : Int)
    (output_folder : Option Path) :
    List Path → ConverterState → ℚ → List OutLine → ConverterState × ℚ × List OutLine
  | [], st, total, out => (st, total, out)
  | f :: fs, st, total, out =>
    if isWebpSuffix f then
      batchLoop w quality lossless method output_folder fs st total
        (out ++ [OutLine.skipping (pathName f)])
    else
      let r := convert_to_webp w st f none quality lossless method output_folder
      batchLoop w quality lossless method output_folder fs r.2.1 (total + r.1.2)
        (out ++ r.2.2)

/-- `WebPConverter.batch_convert`: raise (`Except.error`) when the
directory does not exist; report and return `(0, 0.0)` when no image files
are found; otherwise run the loop and return
`(self.converted_count, total_time)` together with the final counters and
output. -/
def batch_convert (w : World) (st : ConverterState) (directory : Path)
    (quality : Int) (lossless : Bool) (method : Int) (recursive : Bool)
    (output_folder : Option Path) :
    Except String ((Nat × ℚ) × ConverterState × List OutLine) :=
  if w.pathExists directory = false then
    Except.error ("Directory does not exist: " ++ String.mk directory)
  else
    let image_files := find_image_files w directory recursive
    if image_files.isEmpty then
      Except.ok ((0, 0), st, [OutLine.text ("No supported image files found.")])
    else
      let header :=
        [OutLine.text ("Found " ++ toString image_files.length ++ " image(s) to convert..."),
         OutLine.text (String.mk (List.replicate 60 '='))]
      let r := batchLoop w quality lossless method output_folder image_files st 0 header
      Except.ok ((r.1.converted_count, r.2.1), r.1, r.2.2)

/-- The parsed command-line arguments (after `argparse`, whose
`choices` checks have already accepted `quality` and `method`). -/
structure Args where
  input : Path
  output : Option Path
  quality : Int
  lossless : Bool
  method : Int
  recursive : Bool
  verbose : Bool
  output_folder : Option Path

/-- The `main` entry point: returns the process exit code, the final
converter counters, and the printed lines.  Falling off the end of the
Python function is exit code 0; every `sys.exit (1)` is exit code 1. -/
def main (w : World) (a : Args) : Nat × ConverterState × List OutLine :=
  let out0 : List OutLine :=
    [OutLine.text ("WebP Image Converter - Python Version"),
     OutLine.text (String.mk (List.replicate 50 '='))]
  if w.pathExists a.input = false then
    (1, ConverterState.init,
     out0 ++ [OutLine.text ("Error: Input path does not exist: " ++ String.mk a.input)])
  else
    let outV : List OutLine :=
      if a.verbose then
        [OutLine.text ("Input: " ++ String.mk a.input),
         OutLine.text ("Quality: " ++ toString a.quality ++ "%"),
         OutLine.text ("Lossless: " ++ (if a.lossless then "True" else "False")),
         OutLine.text ("Method: " ++ toString a.method),
         OutLine.text ("Recursive: " ++ (if a.recursive then "True" else "False"))] ++
        (match a.output_folder with
         | some f => [OutLine.text ("Output folder: " ++ String.mk f)]
         | none => []) ++
        [OutLine.text (String.mk (List.replicate 50 '='))]
      else []
    if w.isFile a.input then
      if is_valid_image w a.input = false then
        (1, ConverterState.init,
         out0 ++ outV ++
           [OutLine.text ("Error: Invalid or unsupported image file: " ++ String.mk a.input)])
      else
        let r := convert_to_webp w ConverterState.init a.input a.output a.quality
          a.lossless a.method a.output_folder
        match r.1.1 with
        | some _ =>
          (0, r.2.1,
           out0 ++ outV ++ r.2.2 ++
             [OutLine.text ("Conversion completed successfully in " ++ fmtFixed 2 r.1.2 ++ "s!")])
        | none => (1, r.2.1, out0 ++ outV ++ r.2.2 ++ [OutLine.text ("Conversion failed!")])
    else if w.isDir a.input then
      let warn : List OutLine :=
        if a.output.isSome then
          [OutLine.text ("Warning: Output path is ignored when processing directories"),
           OutLine.text ("")]
        else []
      match batch_convert w ConverterState.init a.input a.quality a.lossless a.method
        a.recursive a.output_folder with
      | Except.error e =>
        (1, ConverterState.init,
         out0 ++ outV ++ warn ++ [OutLine.text ("Unexpected error: " ++ e)])
      | Except.ok res =>
        let summary : List OutLine :=
          [OutLine.text (String.mk (List.replicate 60 '=')),
           OutLine.text ("Summary: " ++ toString res.1.1 ++ " images converted successfully"),
           OutLine.text ("Total time: " ++ fmtFixed 2 res.1.2 ++ "s")] ++
          (if 0 < res.1.1 then
            [OutLine.text ("Average time per image: " ++
               fmtFixed 2 (res.1.2 / (res.1.1 : ℚ)) ++ "s")]
           else []) ++
          (if 0 < res.2.1.failed_count then
            [OutLine.text ("Failed conversions: " ++ toString res.2.1.failed_count)]
           else [])
        (0, res.2.1, out0 ++ outV ++ warn ++ res.2.2 ++ summary)
    else
      (1, ConverterState.init,
       out0 ++ outV ++
         [OutLine.text ("Error: Input is neither a file nor directory: " ++ String.mk a.input)])



/-- A concrete run environment used by the witnesses and counterexamples:
directory `imgs` holds three decodable images `a.jpg`, `b.jpg`, `c.jpg`,
one corrupt file `d.jpg`, and an already-WebP file `x.webp`; `d2` is an
empty directory.  The encoder accepts exactly the documented quality range
1..100; every file stats at 2048 bytes and every conversion takes one
second of wall time. -/
def demoWorld : World :=
  { entries :=
      [⟨"imgs".data, false⟩, ⟨"imgs/a.jpg".data, true⟩, ⟨"imgs/b.jpg".data, true⟩,
       ⟨"imgs/c.jpg".data, true⟩, ⟨"imgs/d.jpg".data, true⟩, ⟨"imgs/x.webp".data, true⟩,
       ⟨"d2".data, false⟩],
    isValid := fun p => !(p == "imgs/d.jpg".data),
    decode := fun p =>
      if p == "imgs/d.jpg".data then Except.error ("cannot identify image file")
      else Except.ok Mode.RGB,
    mkdirFails := fun _ => none,
    encode := fun _ k =>
      if 1 ≤ k.quality ∧ k.quality ≤ 100 then Except.ok () else Except.error ("bad quality"),
    statSize := fun _ => Except.ok 2048,
    elapsed := fun _ => 1 }

/-- The command line `convert_webp.py imgs` with all defaults. -/
def demoArgs : Args :=
  { input := "imgs".data, output := none, quality := 80, lossless := false,
    method := 4, recursive := false, verbose := false, output_folder := none }

/-- Projection of a batch result onto `(returned success count,
converted_count, failed_count)`. -/
def batchRetAndState (e : Except String ((Nat × ℚ) × ConverterState × List OutLine)) :
    Option (Nat × Nat × Nat) :=
  match e with
  | Except.ok r => some (r.1.1, r.2.1.converted_count, r.2.1.failed_count)
  | Except.error _ => none

/-- Projection of a batch result onto its returned success count. -/
def batchRetCount (e : Except String ((Nat × ℚ) × ConverterState × List OutLine)) :
    Option Nat :=
  match e with
  | Except.ok r => some r.1.1
  | Except.error _ => none

/-- Projection of a batch result onto the sum of the two counters. -/
def batchCountSum (e : Except String ((Nat × ℚ) × ConverterState × List OutLine)) :
    Option Nat :=
  match e with
  | Except.ok r => some (r.2.1.converted_count + r.2.1.failed_count)
  | Except.error _ => none

/-- Projection of a batch result onto its printed lines. -/
def batchLinesOf (e : Except String ((Nat × ℚ) × ConverterState × List OutLine)) :
    Option (List OutLine) :=
  match e with
  | Except.ok r => some r.2.2
  | Except.error _ => none

/-- Whether an output event is the already-WebP skip notice. -/
def isSkipLine (o : OutLine) : Bool :=
  match o with
  | OutLine.skipping _ => true
  | _ => false

/-- How many skip notices a list of output events contains. -/
def countSkipLines (lines : List OutLine) : Nat := lines.countP isSkipLine

/-- A successful `convertCore` reports the wall time of its input. -/
theorem convertCore_elapsed (w : World) (input_path : Path) (output_path : Option Path)
    (quality : Int) (lossless : Bool) (method : Int) (output_folder : Option Path)
    (v : Path × Nat × Nat × ℚ)
    (h : convertCore w input_path output_path quality lossless method output_folder =
      Except.ok v) :
    v.2.2.2 = w.elapsed input_path := by
  unfold convertCore at h
  repeat' split at h
  all_goals cases h
  rfl

/-- Case analysis on one `convert_to_webp` call: failure bumps the failure
counter, prints the one-line error and returns `(none, 0.0)`; success bumps
the success counter and returns the output path with the elapsed time. -/
theorem convert_to_webp_cases (w : World) (st : ConverterState) (input_path : Path)
    (output_path : Option Path) (quality : Int) (lossless : Bool) (method : Int)
    (output_folder : Option Path) :
    (convertOk w quality lossless method output_folder input_path = false ∧ output_path = none →
      ∃ e, convert_to_webp w st input_path output_path quality lossless method output_folder =
        ((none, 0), ⟨st.converted_count, st.failed_count + 1⟩,
          [OutLine.errorConverting input_path e])) ∧
    (convertOk w quality lossless method output_folder input_path = true ∧ output_path = none →
      ∃ op lines,
        convert_to_webp w st input_path output_path quality lossless method output_folder =
        ((some op, w.elapsed input_path), ⟨st.converted_count + 1, st.failed_count⟩, lines)) := by
  constructor
  · rintro ⟨hok, rfl⟩
    rcases hc : convertCore w input_path none quality lossless method output_folder with e | v
    · exact ⟨e, by simp [convert_to_webp, hc]⟩
    · rw [convertOk, hc] at hok
      simp [Except.isOk, Except.toBool] at hok
  · rintro ⟨hok, rfl⟩
    rcases hc : convertCore w input_path none quality lossless method output_folder with e | v
    · rw [convertOk, hc] at hok
      simp [Except.isOk, Except.toBool] at hok
    · have ht := convertCore_elapsed w input_path none quality lossless method output_folder v hc
      exact ⟨v.1, printConversionResult input_path v.1 v.2.1 v.2.2.1
        ((1 - (v.2.2.1 : ℚ) / (v.2.1 : ℚ)) * 100) v.2.2.2, by simp [convert_to_webp, hc, ht]⟩
/-- The lines printed by one `convert_to_webp` call never include the
already-WebP skip notice. -/
theorem convert_lines_no_skip (w : World) (st : ConverterState) (input_path : Path)
    (output_path : Option Path) (quality : Int) (lossless : Bool) (method : Int)
    (output_folder : Option Path) (s : Path) :
    OutLine.skipping s ∉
      (convert_to_webp w st input_path output_path quality lossless method output_folder).2.2 := by
  rcases hc : convertCore w input_path output_path quality lossless method output_folder with e | v <;>
    simp [convert_to_webp, hc, printConversionResult]

/-- The counter change of one `convert_to_webp` call, as a function of
whether the conversion succeeds. -/
theorem convert_state_change (w : World) (st : ConverterState) (input_path : Path)
    (quality : Int) (lossless : Bool) (method : Int) (output_folder : Option Path) :
    (convert_to_webp w st input_path none quality lossless method output_folder).2.1
      = (if convertOk w quality lossless method output_folder input_path then
          (⟨st.converted_count + 1, st.failed_count⟩ : ConverterState)
        else ⟨st.converted_count, st.failed_count + 1⟩) := by
  rcases hc : convertCore w input_path none quality lossless method output_folder with e | v <;>
    simp [convert_to_webp, hc, convertOk, Except.isOk, Except.toBool]

/-- The time reported by one `convert_to_webp` call: the elapsed wall time
on success, `0.0` on failure. -/
theorem convert_time_change (w : World) (st : ConverterState) (input_path : Path)
    (quality : Int) (lossless : Bool) (method : Int) (output_folder : Option Path) :
    (convert_to_webp w st input_path none quality lossless method output_folder).1.2
      = (if convertOk w quality lossless method output_folder input_path then
          w.elapsed input_path else 0) := by
  rcases hc : convertCore w input_path none quality lossless method output_folder with e | v
  · simp [convert_to_webp, hc, convertOk, Except.isOk, Except.toBool]
  · have ht := convertCore_elapsed w input_path none quality lossless method output_folder v hc
    simp [convert_to_webp, hc, convertOk, Except.isOk, Except.toBool, ht]

/-- Invariant of the batch loop: the final counters are the initial ones
plus the success and failure counts over the processed (non-skipped)
files, the accumulated time grows by the elapsed times of the successful
conversions only, and a skip notice appears in the output only if it was
already there or some listed file has the `.webp` suffix. -/
theorem batchLoop_spec (w : World) (quality : Int) (lossless : Bool) (method : Int)
    (output_folder : Option Path) (files : List Path) (st : ConverterState) (total : ℚ)
    (out : List OutLine) :
    (batchLoop w quality lossless method output_folder files st total out).1.converted_count
      = st.converted_count +
        (batchProcessed files).countP (convertOk w quality lossless method output_folder) ∧
    (batchLoop w quality lossless method output_folder files st total out).1.failed_count
      = st.failed_count +
        (batchProcessed files).countP
          (fun f => !(convertOk w quality lossless method output_folder f)) ∧
    (batchLoop w quality lossless method output_folder files st total out).2.1
      = total +
        (((batchProcessed files).filter
            (convertOk w quality lossless method output_folder)).map w.elapsed).sum ∧
    (∀ s, OutLine.skipping s ∈
        (batchLoop w quality lossless method output_folder files st total out).2.2 →
      (OutLine.skipping s ∈ out ∨ ∃ f ∈ files, isWebpSuffix f = true)) := by
  induction files generalizing st total out with
  | nil => simp [batchLoop, batchProcessed]
  | cons f fs ih =>
    cases hw : isWebpSuffix f with
    | true =>
      have hbp : batchProcessed (f :: fs) = batchProcessed fs := by
        simp [batchProcessed, List.filter_cons, hw]
      have hb : batchLoop w quality lossless method output_folder (f :: fs) st total out
          = batchLoop w quality lossless method output_folder fs st total
            (out ++ [OutLine.skipping (pathName f)]) := by
        simp [batchLoop, hw]
      obtain ⟨ih1, ih2, ih3, ih4⟩ := ih st total (out ++ [OutLine.skipping (pathName f)])
      rw [hb, hbp]
      refine ⟨ih1, ih2, ih3, ?_⟩
      intro s hs
      rcases ih4 s hs with h | h
      · rcases List.mem_append.mp h with h | h
        · exact Or.inl h
        · exact Or.inr ⟨f, List.mem_cons_self f fs, hw⟩
      · obtain ⟨g, hg, hgw⟩ := h
        exact Or.inr ⟨g, List.mem_cons_of_mem f hg, hgw⟩
    | false =>
      have hbp : batchProcessed (f :: fs) = f :: batchProcessed fs := by
        simp [batchProcessed, List.filter_cons, hw]
      have hb : batchLoop w quality lossless method output_folder (f :: fs) st total out
          = batchLoop w quality lossless method output_folder fs
              (convert_to_webp w st f none quality lossless method output_folder).2.1
              (total + (convert_to_webp w st f none quality lossless method output_folder).1.2)
              (out ++ (convert_to_webp w st f none quality lossless method output_folder).2.2) := by
        simp [batchLoop, hw]
      obtain ⟨ih1, ih2, ih3, ih4⟩ :=
        ih (convert_to_webp w st f none quality lossless method output_folder).2.1
          (total + (convert_to_webp w st f none quality lossless method output_folder).1.2)
          (out ++ (convert_to_webp w st f none quality lossless method output_folder).2.2)
      rw [hb, hbp]
      have hst := convert_state_change w st f quality lossless method output_folder
      have htm := convert_time_change w st f quality lossless method output_folder
      cases hok : convertOk w quality lossless method output_folder f with
      | true =>
        rw [hok] at hst htm
        simp only [if_true] at hst htm
        refine ⟨?_, ?_, ?_, ?_⟩
        · rw [ih1, hst]
          simp [List.countP_cons, hok]
          omega
        · rw [ih2, hst]
          simp [List.countP_cons, hok]
        · rw [ih3, htm, List.filter_cons]
          simp only [hok, if_true, List.map_cons, List.sum_cons]
          ring
        · intro s hs
          rcases ih4 s hs with h | h
          · rcases List.mem_append.mp h with h | h
            · exact Or.inl h
            · exact absurd h (convert_lines_no_skip w st f none quality lossless method
                output_folder s)
          · obtain ⟨g, hg, hgw⟩ := h
            exact Or.inr ⟨g, List.mem_cons_of_mem f hg, hgw⟩
      | false =>
        rw [hok] at hst htm
        simp only [if_false, Bool.false_eq_true] at hst htm
        refine ⟨?_, ?_, ?_, ?_⟩
        · rw [ih1, hst]
          simp [List.countP_cons, hok]
        · rw [ih2, hst]
          simp [List.countP_cons, hok]
          omega
        · rw [ih3, htm, List.filter_cons]
          simp only [hok, Bool.false_eq_true, if_false]
          ring
        · intro s hs
          rcases ih4 s hs with h | h
          · rcases List.mem_append.mp h with h | h
            · exact Or.inl h
            · exact absurd h (convert_lines_no_skip w st f none quality lossless method
                output_folder s)
          · obtain ⟨g, hg, hgw⟩ := h
            exact Or.inr ⟨g, List.mem_cons_of_mem f hg, hgw⟩

/-- A batch run over an existing directory never raises. -/
theorem batch_exists_ok (w : World) (st : ConverterState) (directory : Path)
    (quality : Int) (lossless : Bool) (method : Int) (recursive : Bool)
    (output_folder : Option Path) (hex : w.pathExists directory = true) :
    ∃ res, batch_convert w st directory quality lossless method recursive output_folder
      = Except.ok res := by
  unfold batch_convert
  rw [hex]
  simp only [Bool.true_eq_false, if_false]
  by_cases hempty : (find_image_files w directory recursive).isEmpty
  · rw [if_pos hempty]
    exact ⟨_, rfl⟩
  · rw [if_neg hempty]
    exact ⟨_, rfl⟩

/-- Counting successes and failures over a list accounts for its length. -/
theorem countP_not_add {α : Type} (p : α → Bool) (l : List α) :
    l.countP p + l.countP (fun a => !p a) = l.length := by
  induction l with
  | nil => simp
  | cons a l ih =>
    cases hpa : p a <;> simp [List.countP_cons, hpa] <;> omega

/-- Membership in `_find_image_files`: exactly the globbed regular files
with a supported (case-insensitively compared) extension. -/
theorem mem_find_image_files (w : World) (directory : Path) (recursive : Bool) (p : Path) :
    p ∈ find_image_files w directory recursive ↔
      ((∃ e ∈ w.entries, e.path = p ∧ e.isFile = true) ∧
        lowerChars (pathSuffix p) ∈ SUPPORTED_EXTENSIONS ∧
        globMatch directory recursive p = true) := by
  unfold find_image_files
  rw [(List.perm_insertionSort (α := Path) (· ≤ ·) _).mem_iff]
  simp only [List.mem_map, List.mem_filter, Bool.and_eq_true]
  constructor
  · rintro ⟨e, ⟨he, ⟨hg, hf⟩, hc⟩, rfl⟩
    refine ⟨⟨e, he, rfl, hf⟩, ?_, hg⟩
    simpa using hc
  · rintro ⟨⟨e, he, rfl, hf⟩, hsuf, hg⟩
    exact ⟨e, ⟨he, ⟨hg, hf⟩, by simpa using hsuf⟩, rfl⟩

/-- No discovered file carries the `.webp` suffix: `.webp` is not among the
supported extensions, so the skip test of the batch loop never fires. -/
theorem files_not_webp (w : World) (directory : Path) (recursive : Bool) :
    ∀ f ∈ find_image_files w directory recursive, isWebpSuffix f = false := by
  intro f hf
  obtain ⟨-, hsuf, -⟩ := (mem_find_image_files w directory recursive f).mp hf
  unfold isWebpSuffix
  simp only [SUPPORTED_EXTENSIONS, List.mem_cons, List.not_mem_nil, or_false] at hsuf
  rcases hsuf with h | h | h | h | h | h | h <;> rw [h] <;> decide

/-- Full characterisation of a successful `batch_convert` run: the final
counters, the total time, the absence of skip notices, and the returned
success count (the cumulative counter when files were found, the literal
`0` otherwise). -/
theorem batch_convert_ok_spec (w : World) (st : ConverterState) (directory : Path)
    (quality : Int) (lossless : Bool) (method : Int) (recursive : Bool)
    (output_folder : Option Path) (res : (Nat × ℚ) × ConverterState × List OutLine)
    (h : batch_convert w st directory quality lossless method recursive output_folder
      = Except.ok res) :
    res.2.1.converted_count = st.converted_count +
      (batchProcessed (find_image_files w directory recursive)).countP
        (convertOk w quality lossless method output_folder) ∧
    res.2.1.failed_count = st.failed_count +
      (batchProcessed (find_image_files w directory recursive)).countP
        (fun f => !(convertOk w quality lossless method output_folder f)) ∧
    res.1.2 = (((batchProcessed (find_image_files w directory recursive)).filter
        (convertOk w quality lossless method output_folder)).map w.elapsed).sum ∧
    (∀ s, OutLine.skipping s ∉ res.2.2) ∧
    (find_image_files w directory recursive ≠ [] → res.1.1 = res.2.1.converted_count) ∧
    (find_image_files w directory recursive = [] → res.1.1 = 0 ∧ res.2.1 = st) := by
  unfold batch_convert at h
  by_cases hex : w.pathExists directory = false
  · rw [if_pos hex] at h
    cases h
  · rw [if_neg hex] at h
    dsimp only at h
    by_cases hempty : (find_image_files w directory recursive).isEmpty
    · rw [if_pos hempty] at h
      have hfe : find_image_files w directory recursive = [] := by
        simpa [List.isEmpty_iff] using hempty
      cases h
      refine ⟨by simp [hfe, batchProcessed], by simp [hfe, batchProcessed],
        by simp [hfe, batchProcessed], ?_, by intro hne; exact absurd hfe hne, fun _ => ⟨rfl, rfl⟩⟩
      intro s hs
      simp at hs
    · rw [if_neg hempty] at h
      have hfe : find_image_files w directory recursive ≠ [] := by
        simpa [List.isEmpty_iff] using hempty
      obtain ⟨h1, h2, h3, h4⟩ := batchLoop_spec w quality lossless method output_folder
        (find_image_files w directory recursive) st 0
        [OutLine.text ("Found " ++ toString (find_image_files w directory recursive).length ++
           " image(s) to convert..."),
         OutLine.text (String.mk (List.replicate 60 '='))]
      cases h
      refine ⟨h1, h2, by rw [h3, zero_add], ?_, fun _ => rfl, fun h0 => absurd h0 hfe⟩
      intro s hs
      rcases h4 s hs with hmem | hmem
      · simp at hmem
      · obtain ⟨g, hg, hgw⟩ := hmem
        exact absurd hgw (by simp [files_not_webp w directory recursive g hg])

/-- C1 counterexample: `convert_to_webp` does not clamp an out-of-range
quality before the encode step.  The kwargs built for `img.save` carry the
raw quality 200, outside the documented range, and in a world whose encoder
accepts exactly the documented range 1..100 the call with quality 200
fails while the same call with quality 80 succeeds — so the encode step
observes the unclamped value. -/
theorem quality_not_clamped_cex :
    (mkSaveKwargs 200 4 false).quality = 200 ∧
    ¬((mkSaveKwargs 200 4 false).quality ≤ 100) ∧
    ((convert_to_webp demoWorld ConverterState.init ("imgs/a.jpg".data) none 200 false 4
      none).1).1 = none ∧
    ((convert_to_webp demoWorld ConverterState.init ("imgs/a.jpg".data) none 80 false 4
      none).1).1.isSome = true := by
  decide

/-- C1 (amended): the CLI rejects out-of-range quality and method values
(`choices = range (1, 101)` and `range (7)`) instead of clamping them, and
`convert_to_webp` passes quality and method to the encode kwargs unchanged;
hence the encode step sees values in the documented ranges exactly when the
request's values are in range — which the argument parser guarantees for
every CLI-parsed request. -/
theorem choices_reject_not_clamp (q m : Int) (l : Bool) :
    (qualityChoices q = true ↔ 1 ≤ q ∧ q ≤ 100) ∧
    (methodChoices m = true ↔ 0 ≤ m ∧ m ≤ 6) ∧
    (mkSaveKwargs q m l).quality = q ∧
    (mkSaveKwargs q m l).method = m ∧
    (qualityChoices q = true → methodChoices m = true →
      1 ≤ (mkSaveKwargs q m l).quality ∧ (mkSaveKwargs q m l).quality ≤ 100 ∧
      0 ≤ (mkSaveKwargs q m l).method ∧ (mkSaveKwargs q m l).method ≤ 6) := by
  refine ⟨by simp [qualityChoices], by simp [methodChoices], rfl, rfl, ?_⟩
  intro hq hm
  simp [qualityChoices] at hq
  simp [methodChoices] at hm
  exact ⟨hq.1, hq.2, hm.1, hm.2⟩

/-- C1 witness: the default request (quality 80, method 4) passes the
parser checks and reaches the encoder with in-range values. -/
theorem choices_reject_not_clamp_witness :
    1 ≤ (mkSaveKwargs 80 4 false).quality ∧ (mkSaveKwargs 80 4 false).quality ≤ 100 ∧
    0 ≤ (mkSaveKwargs 80 4 false).method ∧ (mkSaveKwargs 80 4 false).method ≤ 6 :=
  (choices_reject_not_clamp 80 4 false).2.2.2.2 (by decide) (by decide)

/-- C6 counterexample: the PIL mode `PA` (palette with alpha) carries an
alpha channel but is not composited over a white background — the code
tests only for `RGBA` and `LA`, so `PA` falls into the plain
`convert ("RGB")` branch. -/
theorem alpha_not_composited_cex :
    Mode.hasAlpha Mode.PA = true ∧
    normStep Mode.PA ≠ NormStep.compositeOnWhite ∧
    normStep Mode.PA = NormStep.convertToRGB ∧
    (normalizedMode Mode.PA).hasAlpha = false := by
  decide

/-- C6 (amended): normalisation always yields an alpha-free image whose
mode is RGB or 8-bit grayscale; images of mode `RGBA` or `LA` (and only
those) are composited over an opaque white background, every other mode
that is neither `RGB` nor `L` — including the alpha-carrying `PA` — is
converted to RGB directly, and `RGB`/`L` images pass through unchanged. -/
theorem normalize_color_spec (m : Mode) :
    (normalizedMode m).hasAlpha = false ∧
    (normalizedMode m = Mode.RGB ∨ normalizedMode m = Mode.L) ∧
    ((m = Mode.RGBA ∨ m = Mode.LA) →
      normStep m = NormStep.compositeOnWhite ∧ normalizedMode m = Mode.RGB) ∧
    (m ≠ Mode.RGBA → m ≠ Mode.LA → m ≠ Mode.RGB → m ≠ Mode.L →
      normStep m = NormStep.convertToRGB ∧ normalizedMode m = Mode.RGB) ∧
    ((m = Mode.RGB ∨ m = Mode.L) →
      normStep m = NormStep.unchanged ∧ normalizedMode m = m) := by
  cases m <;> decide

/-- C6 witness: an `RGBA` image is composited over white into an RGB
image. -/
theorem normalize_color_witness :
    normStep Mode.RGBA = NormStep.compositeOnWhite ∧ normalizedMode Mode.RGBA = Mode.RGB :=
  (normalize_color_spec Mode.RGBA).2.2.1 (Or.inl rfl)

/-- C3: `convert_to_webp` never propagates an exception: every run either
fails — printing exactly the one-line error naming the input file and the
error, bumping `failed_count` by one, leaving `converted_count` unchanged,
and returning `(None, 0.0)` — or succeeds, printing the report block,
bumping `converted_count` by one, leaving `failed_count` unchanged, and
returning the output path with the elapsed time. -/
theorem convert_error_handling (w : World) (st : ConverterState) (input_path : Path)
    (output_path : Option Path) (quality : Int) (lossless : Bool) (method : Int)
    (output_folder : Option Path) :
    (∃ msg, convert_to_webp w st input_path output_path quality lossless method output_folder
        = ((none, 0), ⟨st.converted_count, st.failed_count + 1⟩,
            [OutLine.errorConverting input_path msg]) ∧
      (OutLine.errorConverting input_path msg).render
        = "Error converting " ++ String.mk input_path ++ ": " ++ msg) ∨
    (∃ outPath t original_size compressed_size,
      convert_to_webp w st input_path output_path quality lossless method output_folder
        = ((some outPath, t), ⟨st.converted_count + 1, st.failed_count⟩,
            printConversionResult input_path outPath original_size compressed_size
              ((1 - (compressed_size : ℚ) / (original_size : ℚ)) * 100) t)) := by
  rcases hc : convertCore w input_path output_path quality lossless method output_folder with e | v
  · exact Or.inl ⟨e, by simp [convert_to_webp, hc], rfl⟩
  · exact Or.inr ⟨v.1, v.2.2.2, v.2.1, v.2.2.1, by simp [convert_to_webp, hc]⟩

/-- C8: the counters start at zero, each `convert_to_webp` call increases
their sum by exactly one, and a batch run changes them exactly once per
processed file (counters are otherwise untouched — discovery, validation
and size formatting take no converter state at all). -/
theorem counter_invariant_spec :
    (ConverterState.init.converted_count = 0 ∧ ConverterState.init.failed_count = 0) ∧
    (∀ (w : World) (st : ConverterState) (input_path : Path) (output_path : Option Path)
        (quality : Int) (lossless : Bool) (method : Int) (output_folder : Option Path),
      (convert_to_webp w st input_path output_path quality lossless method
          output_folder).2.1.converted_count +
        (convert_to_webp w st input_path output_path quality lossless method
          output_folder).2.1.failed_count
        = st.converted_count + st.failed_count + 1) ∧
    (∀ (w : World) (st : ConverterState) (directory : Path) (quality : Int) (lossless : Bool)
        (method : Int) (recursive : Bool) (output_folder : Option Path)
        (res : (Nat × ℚ) × ConverterState × List OutLine),
      batch_convert w st directory quality lossless method recursive output_folder
          = Except.ok res →
      res.2.1.converted_count + res.2.1.failed_count
        = st.converted_count + st.failed_count
          + (batchProcessed (find_image_files w directory recursive)).length) := by
  refine ⟨⟨rfl, rfl⟩, ?_, ?_⟩
  · intro w st input_path output_path quality lossless method output_folder
    rcases hc : convertCore w input_path output_path quality lossless method output_folder
      with e | v <;> simp [convert_to_webp, hc] <;> omega
  · intro w st directory quality lossless method recursive output_folder res h
    obtain ⟨h1, h2, -, -, -, -⟩ := batch_convert_ok_spec w st directory quality lossless method
      recursive output_folder res h
    rw [h1, h2]
    have hl := countP_not_add (convertOk w quality lossless method output_folder)
      (batchProcessed (find_image_files w directory recursive))
    omega

/-- C8 witness: the demo batch run (four processed files) moves the counter
sum from 0 to 4. -/
theorem counter_invariant_witness :
    batchCountSum (batch_convert demoWorld ConverterState.init ("imgs".data) 80 false 4
      false none) = some 4 := by
  obtain ⟨res, hres⟩ := batch_exists_ok demoWorld ConverterState.init ("imgs".data) 80 false 4
    false none (by decide)
  have h := counter_invariant_spec.2.2 demoWorld ConverterState.init ("imgs".data) 80 false 4
    false none res hres
  rw [hres]
  show some (res.2.1.converted_count + res.2.1.failed_count) = some 4
  rw [h]
  have hlen : (batchProcessed (find_image_files demoWorld ("imgs".data) false)).length = 4 := by
    decide
  rw [hlen]
  rfl

/-- C9 counterexample: the batch return value is not the cumulative
counter.  A first run over `imgs` converts three files (and the converter
carries counters (3, 1)), but a second run over the empty directory `d2`
on the same converter returns success count 0, not a count that includes
the three earlier successes. -/
theorem batch_count_not_cumulative_cex :
    batchRetAndState (batch_convert demoWorld ConverterState.init ("imgs".data) 80 false 4
      false none) = some (3, 3, 1) ∧
    batchRetAndState (batch_convert demoWorld ⟨3, 1⟩ ("d2".data) 80 false 4 false none)
      = some (0, 3, 1) := by
  decide

/-- C9 (amended): whenever discovery finds at least one image file, the
first component returned by `batch_convert` is the instance's cumulative
`converted_count` — the prior count plus this call's successes — so a
second call's return includes the earlier successes; when discovery is
empty the call returns the literal 0 regardless of the counters. -/
theorem batch_count_cumulative_spec (w : World) (st : ConverterState) (directory : Path)
    (quality : Int) (lossless : Bool) (method : Int) (recursive : Bool)
    (output_folder : Option Path) (res : (Nat × ℚ) × ConverterState × List OutLine)
    (h : batch_convert w st directory quality lossless method recursive output_folder
      = Except.ok res) :
    (find_image_files w directory recursive ≠ [] →
      res.1.1 = res.2.1.converted_count ∧
      res.1.1 = st.converted_count +
        (batchProcessed (find_image_files w directory recursive)).countP
          (convertOk w quality lossless method output_folder)) ∧
    (find_image_files w directory recursive = [] →
      res.1.1 = 0 ∧ res.2.1 = st) := by
  obtain ⟨h1, -, -, -, h5, h6⟩ := batch_convert_ok_spec w st directory quality lossless method
    recursive output_folder res h
  exact ⟨fun hne => ⟨h5 hne, by rw [h5 hne, h1]⟩, h6⟩

/-- C9 witness: rerunning the demo batch on a converter that already holds
three successes returns 3 + 3 = 6, the cumulative count. -/
theorem batch_count_cumulative_witness :
    batchRetCount (batch_convert demoWorld ⟨3, 1⟩ ("imgs".data) 80 false 4 false none)
      = some 6 := by
  obtain ⟨res, hres⟩ := batch_exists_ok demoWorld ⟨3, 1⟩ ("imgs".data) 80 false 4 false none
    (by decide)
  have h := (batch_count_cumulative_spec demoWorld ⟨3, 1⟩ ("imgs".data) 80 false 4 false none
    res hres).1 (by decide)
  rw [hres]
  show some res.1.1 = some 6
  rw [h.2]
  have hcnt : (batchProcessed (find_image_files demoWorld ("imgs".data) false)).countP
      (convertOk demoWorld 80 false 4 none) = 3 := by decide
  rw [hcnt]

/-- C10: a failed `convert_to_webp` reports elapsed time exactly `0.0`
(a successful one reports the wall time of that file), so the batch total
is the sum of the elapsed times of the successful conversions only. -/
theorem failed_time_zero_spec (w : World) (st : ConverterState) (input_path directory : Path)
    (output_path : Option Path) (quality : Int) (lossless : Bool) (method : Int)
    (recursive : Bool) (output_folder : Option Path) :
    (((convert_to_webp w st input_path output_path quality lossless method
        output_folder).1).1 = none →
      ((convert_to_webp w st input_path output_path quality lossless method
        output_folder).1).2 = 0) ∧
    (((convert_to_webp w st input_path output_path quality lossless method
        output_folder).1).1.isSome = true →
      ((convert_to_webp w st input_path output_path quality lossless method
        output_folder).1).2 = w.elapsed input_path) ∧
    (∀ res : (Nat × ℚ) × ConverterState × List OutLine,
      batch_convert w st directory quality lossless method recursive output_folder
        = Except.ok res →
      res.1.2 = (((batchProcessed (find_image_files w directory recursive)).filter
          (convertOk w quality lossless method output_folder)).map w.elapsed).sum) := by
  refine ⟨?_, ?_, ?_⟩
  · intro hn
    rcases hc : convertCore w input_path output_path quality lossless method output_folder
      with e | v
    · simp [convert_to_webp, hc]
    · simp [convert_to_webp, hc] at hn
  · intro hs
    rcases hc : convertCore w input_path output_path quality lossless method output_folder
      with e | v
    · simp [convert_to_webp, hc] at hs
    · have ht := convertCore_elapsed w input_path output_path quality lossless method
        output_folder v hc
      simp [convert_to_webp, hc, ht]
  · intro res h
    exact (batch_convert_ok_spec w st directory quality lossless method recursive
      output_folder res h).2.2.1

/-- C10 witness: the corrupt demo file takes one second of wall time but
its failed conversion reports elapsed time 0.0. -/
theorem failed_time_zero_witness :
    ((convert_to_webp demoWorld ConverterState.init ("imgs/d.jpg".data) none 80 false 4
      none).1).2 = 0 ∧
    demoWorld.elapsed ("imgs/d.jpg".data) = 1 :=
  ⟨(failed_time_zero_spec demoWorld ConverterState.init ("imgs/d.jpg".data) ("imgs".data)
      none 80 false 4 false none).1 (by decide), by decide⟩

/-- C2 counterexample: a directory containing an already-WebP file never
produces the skip notice.  In the demo world `imgs/x.webp` is a regular
file of the scanned directory with the `.webp` suffix, yet discovery
excludes it (`.webp` is not a supported extension) and the batch run over
`imgs` prints zero skip notices. -/
theorem webp_skip_notice_never_printed_cex :
    World.isFile demoWorld ("imgs/x.webp".data) = true ∧
    lowerChars (pathSuffix ("imgs/x.webp".data)) = ".webp".data ∧
    isDirectChildPath ("imgs".data) ("imgs/x.webp".data) = true ∧
    find_image_files demoWorld ("imgs".data) false
      = ["imgs/a.jpg".data, "imgs/b.jpg".data, "imgs/c.jpg".data, "imgs/d.jpg".data] ∧
    (batchLinesOf (batch_convert demoWorld ConverterState.init ("imgs".data) 80 false 4
      false none)).map countSkipLines = some 0 := by
  decide

/-- C2 (amended): `.webp` is not in `SUPPORTED_EXTENSIONS`, so a file with
the `.webp` extension is never discovered at all; every discovered file is
therefore passed to the conversion pipeline, the skip branch of the batch
loop is dead code, and no batch run ever prints the skip notice. -/
theorem webp_never_discovered_spec (w : World) (st : ConverterState) (directory : Path)
    (quality : Int) (lossless : Bool) (method : Int) (recursive : Bool)
    (output_folder : Option Path) :
    (∀ f ∈ find_image_files w directory recursive, isWebpSuffix f = false) ∧
    batchProcessed (find_image_files w directory recursive)
      = find_image_files w directory recursive ∧
    (∀ res : (Nat × ℚ) × ConverterState × List OutLine,
      batch_convert w st directory quality lossless method recursive output_folder
        = Except.ok res →
      ∀ s, OutLine.skipping s ∉ res.2.2) := by
  refine ⟨files_not_webp w directory recursive, ?_, ?_⟩
  · apply List.filter_eq_self.mpr
    intro f hf
    simp [files_not_webp w directory recursive f hf]
  · intro res h
    exact (batch_convert_ok_spec w st directory quality lossless method recursive
      output_folder res h).2.2.2.1

/-- C2 witness: the demo batch run over `imgs` passes all four discovered
files to the pipeline and prints no skip notice. -/
theorem webp_never_discovered_witness :
    (batchLinesOf (batch_convert demoWorld ⟨0, 0⟩ ("imgs".data) 80 false 4 false none)).map
      countSkipLines = some 0 := by
  obtain ⟨res, hres⟩ := batch_exists_ok demoWorld ⟨0, 0⟩ ("imgs".data) 80 false 4 false none
    (by decide)
  have h := (webp_never_discovered_spec demoWorld ⟨0, 0⟩ ("imgs".data) 80 false 4 false
    none).2.2 res hres
  rw [hres]
  show some (countSkipLines res.2.2) = some 0
  have hz : countSkipLines res.2.2 = 0 := by
    apply List.countP_eq_zero.mpr
    intro o ho
    cases o with
    | text s => simp [isSkipLine]
    | skipping s => exact absurd ho (h s)
    | errorConverting p msg => simp [isSkipLine]
  exact congrArg some hz

/-- C7: exit-code asymmetry.  When the input is a directory (and not a
file), `main` always exits 0 — per-file failures only move the counters,
which end at exactly the number of successful and failed conversions of
the discovered files; when the input is a valid single file whose
conversion fails, `main` exits 1. -/
theorem exit_code_spec (w : World) (a : Args) :
    (w.isFile a.input = false → w.isDir a.input = true →
      (main w a).1 = 0 ∧
      (main w a).2.1.converted_count
        = (batchProcessed (find_image_files w a.input a.recursive)).countP
            (convertOk w a.quality a.lossless a.method a.output_folder) ∧
      (main w a).2.1.failed_count
        = (batchProcessed (find_image_files w a.input a.recursive)).countP
            (fun f => !(convertOk w a.quality a.lossless a.method a.output_folder f))) ∧
    (w.isFile a.input = true → is_valid_image w a.input = true →
      ((convert_to_webp w ConverterState.init a.input a.output a.quality a.lossless a.method
          a.output_folder).1).1 = none →
      (main w a).1 = 1) := by
  constructor
  · intro hfile hdir
    have hpe : w.pathExists a.input = true := by
      simp [World.pathExists, hdir]
    obtain ⟨res, hres⟩ := batch_exists_ok w ConverterState.init a.input a.quality a.lossless
      a.method a.recursive a.output_folder hpe
    obtain ⟨hc, hf, -, -, -, -⟩ := batch_convert_ok_spec w ConverterState.init a.input
      a.quality a.lossless a.method a.recursive a.output_folder res hres
    have h0 : (main w a).1 = 0 := by
      simp [main, hpe, hfile, hdir, hres]
    have h1 : (main w a).2.1 = res.2.1 := by
      simp [main, hpe, hfile, hdir, hres]
    refine ⟨h0, ?_, ?_⟩
    · rw [h1, hc]
      simp [ConverterState.init]
    · rw [h1, hf]
      simp [ConverterState.init]
  · intro hfile hvalid hfail
    simp [main, World.pathExists, hfile, hvalid, hfail]

/-- C7 witness: the demo batch run — a directory with three valid images
and one corrupt file — ends with counters (3, 1) and exit code 0. -/
theorem exit_code_witness :
    (main demoWorld demoArgs).1 = 0 ∧
    (main demoWorld demoArgs).2.1.converted_count = 3 ∧
    (main demoWorld demoArgs).2.1.failed_count = 1 := by
  have h := (exit_code_spec demoWorld demoArgs).1 (by decide) (by decide)
  refine ⟨h.1, ?_, ?_⟩
  · rw [h.2.1]
    decide
  · rw [h.2.2]
    decide

/-- C4: the File Discoverer returns exactly the regular files whose
extension, compared case-insensitively, is one of the seven supported
ones — direct children without the recursive flag, the full subtree with
it — sorted lexicographically by path, and the empty list (not an error)
exactly when nothing matches. -/
theorem find_image_files_spec (w : World) (directory : Path) (recursive : Bool) :
    List.Sorted (· ≤ ·) (find_image_files w directory recursive) ∧
    (∀ p : Path, p ∈ find_image_files w directory recursive ↔
      ((∃ e ∈ w.entries, e.path = p ∧ e.isFile = true) ∧
        lowerChars (pathSuffix p) ∈ SUPPORTED_EXTENSIONS ∧
        (if recursive then isDescendantPath directory p
         else isDirectChildPath directory p) = true)) ∧
    (find_image_files w directory recursive = [] ↔
      ∀ p : Path, ¬((∃ e ∈ w.entries, e.path = p ∧ e.isFile = true) ∧
        lowerChars (pathSuffix p) ∈ SUPPORTED_EXTENSIONS ∧
        (if recursive then isDescendantPath directory p
         else isDirectChildPath directory p) = true)) := by
  have hmem : ∀ p : Path, p ∈ find_image_files w directory recursive ↔
      ((∃ e ∈ w.entries, e.path = p ∧ e.isFile = true) ∧
        lowerChars (pathSuffix p) ∈ SUPPORTED_EXTENSIONS ∧
        (if recursive then isDescendantPath directory p
         else isDirectChildPath directory p) = true) := by
    intro p
    simpa [globMatch] using mem_find_image_files w directory recursive p
  refine ⟨?_, hmem, ?_⟩
  · unfold find_image_files
    exact List.sorted_insertionSort (· ≤ ·) _
  · rw [List.eq_nil_iff_forall_not_mem]
    exact forall_congr' fun p => not_congr (hmem p)

/-- The loop of `format_size` makes no step when the value is below 1024
or the unit index is maximal. -/
theorem sizeLoop_stop (fuel : Nat) (size : ℚ) (i : Nat)
    (h : ¬(1024 ≤ size ∧ i < sizeUnits.length - 1)) :
    sizeLoop (fuel + 1) size i = (size, i) := by
  simp only [sizeLoop]
  rw [if_neg h]

/-- The loop of `format_size` divides by 1024 and bumps the index while
its guard holds. -/
theorem sizeLoop_step (fuel : Nat) (size : ℚ) (i : Nat)
    (h1 : 1024 ≤ size) (h2 : i < sizeUnits.length - 1) :
    sizeLoop (fuel + 1) size i = sizeLoop fuel (size / 1024) (i + 1) := by
  simp only [sizeLoop]
  rw [if_pos ⟨h1, h2⟩]

/-- Comparing a scaled value against 1024 is comparing `n` against the
next power of 1024 (at least). -/
theorem le_div_pow_cast (n i : ℕ) :
    ((1024 : ℚ) ≤ (n : ℚ) / 1024 ^ i) ↔ 1024 ^ (i + 1) ≤ n := by
  rw [le_div_iff₀ (by positivity)]
  rw [show (1024 : ℚ) * 1024 ^ i = ((1024 ^ (i + 1) : ℕ) : ℚ) by push_cast; ring]
  exact Nat.cast_le

/-- Comparing a scaled value against 1024 is comparing `n` against the
next power of 1024 (strictly). -/
theorem div_pow_lt_cast (n i : ℕ) :
    ((n : ℚ) / 1024 ^ i < 1024) ↔ n < 1024 ^ (i + 1) := by
  rw [div_lt_iff₀ (by positivity)]
  rw [show (1024 : ℚ) * 1024 ^ i = ((1024 ^ (i + 1) : ℕ) : ℚ) by push_cast; ring]
  exact Nat.cast_lt

/-- Successive divisions by 1024 accumulate into one power. -/
theorem div_div_pow (x : ℚ) (i : ℕ) : x / 1024 ^ i / 1024 = x / 1024 ^ (i + 1) := by
  rw [div_div, ← pow_succ]

/-- One guarded loop step, stated on the scaled representative. -/
theorem sizeLoop_step_pow (fuel : Nat) (n : ℕ) (i : Nat) (h1 : 1024 ^ (i + 1) ≤ n)
    (h2 : i < 4) :
    sizeLoop (fuel + 1) ((n : ℚ) / 1024 ^ i) i
      = sizeLoop fuel ((n : ℚ) / 1024 ^ (i + 1)) (i + 1) := by
  rw [sizeLoop_step fuel _ _ ((le_div_pow_cast n i).mpr h1) (by simpa [sizeUnits] using h2),
    div_div_pow]

/-- The loop stops on the scaled representative once `n` is below the next
power of 1024. -/
theorem sizeLoop_stop_pow (fuel : Nat) (n : ℕ) (i : Nat) (h1 : n < 1024 ^ (i + 1)) :
    sizeLoop (fuel + 1) ((n : ℚ) / 1024 ^ i) i = ((n : ℚ) / 1024 ^ i, i) := by
  apply sizeLoop_stop
  rintro ⟨hle, -⟩
  rw [le_div_pow_cast] at hle
  omega

/-- The `format_size` loop computes `n / 1024 ^ kOf n` and stops at unit
index `kOf n`. -/
theorem sizeLoop_eq (n : ℕ) :
    sizeLoop 4 (n : ℚ) 0 = ((n : ℚ) / 1024 ^ kOf n, kOf n) := by
  by_cases h0 : n < 1024
  · have hk : kOf n = 0 := by unfold kOf; rw [if_pos h0]
    have e := sizeLoop_stop_pow 3 n 0 (by simpa using h0)
    rw [pow_zero, div_one] at e
    rw [e, hk, pow_zero, div_one]
  · have e1 : sizeLoop 4 (n : ℚ) 0 = sizeLoop 3 ((n : ℚ) / 1024 ^ 1) 1 := by
      have e := sizeLoop_step_pow 3 n 0 (by simpa using not_lt.mp h0) (by omega)
      rwa [pow_zero, div_one] at e
    by_cases h1 : n < 1024 ^ 2
    · have hk : kOf n = 1 := by unfold kOf; rw [if_neg h0, if_pos h1]
      have e2 : sizeLoop 3 ((n : ℚ) / 1024 ^ 1) 1 = ((n : ℚ) / 1024 ^ 1, 1) :=
        sizeLoop_stop_pow 2 n 1 (by simpa using h1)
      rw [e1, e2, hk]
    · have e2 : sizeLoop 3 ((n : ℚ) / 1024 ^ 1) 1 = sizeLoop 2 ((n : ℚ) / 1024 ^ 2) 2 :=
        sizeLoop_step_pow 2 n 1 (by simpa using not_lt.mp h1) (by omega)
      by_cases h2 : n < 1024 ^ 3
      · have hk : kOf n = 2 := by unfold kOf; rw [if_neg h0, if_neg h1, if_pos h2]
        have e3 : sizeLoop 2 ((n : ℚ) / 1024 ^ 2) 2 = ((n : ℚ) / 1024 ^ 2, 2) :=
          sizeLoop_stop_pow 1 n 2 (by simpa using h2)
        rw [e1, e2, e3, hk]
      · have e3 : sizeLoop 2 ((n : ℚ) / 1024 ^ 2) 2 = sizeLoop 1 ((n : ℚ) / 1024 ^ 3) 3 :=
          sizeLoop_step_pow 1 n 2 (by simpa using not_lt.mp h2) (by omega)
        by_cases h3 : n < 1024 ^ 4
        · have hk : kOf n = 3 := by unfold kOf; rw [if_neg h0, if_neg h1, if_neg h2, if_pos h3]
          have e4 : sizeLoop 1 ((n : ℚ) / 1024 ^ 3) 3 = ((n : ℚ) / 1024 ^ 3, 3) :=
            sizeLoop_stop_pow 0 n 3 (by simpa using h3)
          rw [e1, e2, e3, e4, hk]
        · have hk : kOf n = 4 := by unfold kOf; rw [if_neg h0, if_neg h1, if_neg h2, if_neg h3]
          have e4 : sizeLoop 1 ((n : ℚ) / 1024 ^ 3) 3 = sizeLoop 0 ((n : ℚ) / 1024 ^ 4) 4 :=
            sizeLoop_step_pow 0 n 3 (by simpa using not_lt.mp h3) (by omega)
          have e5 : sizeLoop 0 ((n : ℚ) / 1024 ^ 4) 4 = ((n : ℚ) / 1024 ^ 4, 4) := rfl
          rw [e1, e2, e3, e4, e5, hk]

/-- `format_size` through the closed form of its loop. -/
theorem format_size_eq (n : ℕ) :
    format_size n
      = fmtFixed 1 ((n : ℚ) / 1024 ^ kOf n) ++ " " ++ sizeUnits.getD (kOf n) ("") := by
  unfold format_size
  simp only [sizeLoop_eq]

/-- Region bounds of the closed-form unit index. -/
theorem kOf_bounds (n : ℕ) :
    (kOf n = 4 ∨ n < 1024 ^ (kOf n + 1)) ∧ (kOf n = 0 ∨ 1024 ^ kOf n ≤ n) := by
  by_cases h0 : n < 1024
  · have hk : kOf n = 0 := by unfold kOf; rw [if_pos h0]
    rw [hk]
    exact ⟨Or.inr (by simpa using h0), Or.inl rfl⟩
  · by_cases h1 : n < 1024 ^ 2
    · have hk : kOf n = 1 := by unfold kOf; rw [if_neg h0, if_pos h1]
      rw [hk]
      exact ⟨Or.inr (by simpa using h1), Or.inr (by simpa using not_lt.mp h0)⟩
    · by_cases h2 : n < 1024 ^ 3
      · have hk : kOf n = 2 := by unfold kOf; rw [if_neg h0, if_neg h1, if_pos h2]
        rw [hk]
        exact ⟨Or.inr (by simpa using h2), Or.inr (by simpa using not_lt.mp h1)⟩
      · by_cases h3 : n < 1024 ^ 4
        · have hk : kOf n = 3 := by unfold kOf; rw [if_neg h0, if_neg h1, if_neg h2, if_pos h3]
          rw [hk]
          exact ⟨Or.inr (by simpa using h3), Or.inr (by simpa using not_lt.mp h2)⟩
        · have hk : kOf n = 4 := by unfold kOf; rw [if_neg h0, if_neg h1, if_neg h2, if_neg h3]
          rw [hk]
          exact ⟨Or.inl rfl, Or.inr (by simpa using not_lt.mp h3)⟩

/-- Rounding a nonnegative rational half-to-even is nonnegative. -/
theorem roundHalfEven_nonneg (q : ℚ) (h : 0 ≤ q) : 0 ≤ roundHalfEven q := by
  have hfl : 0 ≤ ⌊q⌋ := Int.floor_nonneg.mpr h
  simp only [roundHalfEven]
  repeat' split
  all_goals omega

/-- Padding a single decimal digit to width one is the identity. -/
theorem padZeros_one_digit (b : ℕ) (h : b < 10) : padZeros 1 (toString b) = toString b := by
  interval_cases b <;> decide

/-- Fixed-point rendering of a nonnegative rational with precision one:
an integer part, a dot, and one decimal digit, whose combined value is the
half-to-even rounding of ten times the value. -/
theorem fmtFixed_one_digits (q : ℚ) (h : 0 ≤ q) :
    ∃ a b : ℕ, b < 10 ∧ fmtFixed 1 q = toString a ++ "." ++ toString b ∧
      ((a : ℤ) * 10 + (b : ℤ)) = roundHalfEven (q * 10) := by
  have h10 : (10 : ℚ) ^ (1 : ℕ) = 10 := by norm_num
  have hs : 0 ≤ roundHalfEven (q * 10) := roundHalfEven_nonneg _ (by positivity)
  refine ⟨(roundHalfEven (q * 10)).natAbs / 10, (roundHalfEven (q * 10)).natAbs % 10,
    Nat.mod_lt _ (by norm_num), ?_, ?_⟩
  · simp only [fmtFixed]
    rw [h10]
    rw [if_neg (by norm_num : ¬(1 : ℕ) = 0), if_neg (not_lt.mpr hs)]
    rw [pow_one]
    rw [padZeros_one_digit _ (Nat.mod_lt _ (by norm_num))]
    simp
  · have habs : (((roundHalfEven (q * 10)).natAbs : ℤ)) = roundHalfEven (q * 10) :=
      Int.natAbs_of_nonneg hs
    have hdm := Nat.div_add_mod (roundHalfEven (q * 10)).natAbs 10
    omega

/-- Fixed-point rendering evaluated at a concretely rounded value. -/
theorem fmtFixed_eval (prec : Nat) (q : ℚ) (z : ℤ)
    (hz : roundHalfEven (q * (10 : ℚ) ^ prec) = z) (h0 : ¬z < 0) (hp : ¬prec = 0) :
    fmtFixed prec q
      = toString (z.natAbs / 10 ^ prec) ++ "." ++ padZeros prec (toString (z.natAbs % 10 ^ prec)) := by
  simp only [fmtFixed]
  rw [hz, if_neg hp, if_neg h0]
  simp

/-- C5: `format_size` repeatedly divides by 1024 while the value is at
least 1024 and the unit index is below the last of B, KB, MB, GB, TB, and
renders the result with exactly one (correctly rounded) fractional digit
followed by the unit; in particular 0, 1536 and 1048576 bytes format as
"0.0 B", "1.5 KB" and "1.0 MB". -/
theorem format_size_spec :
    format_size 0 = "0.0 B" ∧ format_size 1536 = "1.5 KB" ∧
    format_size 1048576 = "1.0 MB" ∧
    (∀ n : ℕ, ∃ k a b : ℕ, k < 5 ∧ b < 10 ∧
      format_size n = toString a ++ "." ++ toString b ++ " " ++ sizeUnits.getD k ("") ∧
      ((a : ℤ) * 10 + (b : ℤ)) = roundHalfEven ((n : ℚ) / 1024 ^ k * 10) ∧
      ((n : ℚ) / 1024 ^ k < 1024 ∨ k = 4) ∧
      (k = 0 ∨ 1024 ^ k ≤ n)) := by
  have hgen : ∀ n : ℕ, ∃ k a b : ℕ, k < 5 ∧ b < 10 ∧
      format_size n = toString a ++ "." ++ toString b ++ " " ++ sizeUnits.getD k ("") ∧
      ((a : ℤ) * 10 + (b : ℤ)) = roundHalfEven ((n : ℚ) / 1024 ^ k * 10) ∧
      ((n : ℚ) / 1024 ^ k < 1024 ∨ k = 4) ∧
      (k = 0 ∨ 1024 ^ k ≤ n) := by
    intro n
    have hk5 : kOf n < 5 := by
      unfold kOf
      repeat' split
      all_goals omega
    have hpos : (0 : ℚ) ≤ (n : ℚ) / 1024 ^ kOf n := by positivity
    obtain ⟨a, b, hb, hfmt, hab⟩ := fmtFixed_one_digits _ hpos
    refine ⟨kOf n, a, b, hk5, hb, ?_, hab, ?_, (kOf_bounds n).2⟩
    · rw [format_size_eq n, hfmt]
    · rcases (kOf_bounds n).1 with h | h
      · exact Or.inr h
      · exact Or.inl ((div_pow_lt_cast n (kOf n)).mpr h)
  refine ⟨?_, ?_, ?_, hgen⟩
  · have hk : kOf 0 = 0 := by decide
    rw [format_size_eq 0, hk]
    have hr : roundHalfEven (((0 : ℕ) : ℚ) / 1024 ^ (0 : ℕ) * (10 : ℚ) ^ (1 : ℕ)) = 0 := by
      rw [show ((0 : ℕ) : ℚ) / 1024 ^ (0 : ℕ) * (10 : ℚ) ^ (1 : ℕ) = 0 by push_cast; norm_num]
      unfold roundHalfEven
      norm_num
    rw [fmtFixed_eval 1 _ 0 hr (by decide) (by decide)]
    decide
  · have hk : kOf 1536 = 1 := by decide
    rw [format_size_eq 1536, hk]
    have hr : roundHalfEven (((1536 : ℕ) : ℚ) / 1024 ^ (1 : ℕ) * (10 : ℚ) ^ (1 : ℕ)) = 15 := by
      rw [show ((1536 : ℕ) : ℚ) / 1024 ^ (1 : ℕ) * (10 : ℚ) ^ (1 : ℕ) = 15 by
        push_cast; norm_num]
      unfold roundHalfEven
      norm_num
    rw [fmtFixed_eval 1 _ 15 hr (by decide) (by decide)]
    decide
  · have hk : kOf 1048576 = 2 := by decide
    rw [format_size_eq 1048576, hk]
    have hr : roundHalfEven (((1048576 : ℕ) : ℚ) / 1024 ^ (2 : ℕ) * (10 : ℚ) ^ (1 : ℕ)) = 10 := by
      rw [show ((1048576 : ℕ) : ℚ) / 1024 ^ (2 : ℕ) * (10 : ℚ) ^ (1 : ℕ) = 10 by
        push_cast; norm_num]
      unfold roundHalfEven
      norm_num
    rw [fmtFixed_eval 1 _ 10 hr (by decide) (by decide)]
    decide

end ConvertWebp
